import Mathlib

/-!
Verification of the analytics core of the mortgage-calculator repository:
a shallow embedding of `src/server/analytics-server.js` (the event log,
aggregate stats tracker, ingestion endpoint and query handlers) and of the
CLI analyzer (`src/unnamed/part_000`, `analyzeData`).

Modelling conventions:
  * JavaScript numbers are modelled by `JsNum` (a rational, or one of the
    IEEE specials Infinity / -Infinity / NaN; -0 is identified with 0).
  * JavaScript values that may hold a user id or session id are modelled by
    `JsVal` (string, integer number, boolean, null, undefined).
  * A line of the `events.jsonl` file is a `RawLine`: either a line that
    `JSON.parse` decodes into a `Session`, or a line on which `JSON.parse`
    throws (`malformed`).  `JSON.stringify` of a session round-trips, so an
    appended record is always `RawLine.ok`.
  * The stats file `stats.json` is a `Stats` value.  Its `unique_users`
    field as stored on disk is a `UniqueUsers`: `init()` writes
    `JSON.stringify({... unique_users: new Set()})`, and `JSON.stringify`
    serializes a `Set` as the empty object `{}` (`emptyObj`); a later write
    stores a JSON array (`arr`); `missingOrNull` stands for an absent key or
    another falsy value (the `if (!stats.unique_users)` branch).
  * `fs` failures are modelled by an explicit `appendOk : Bool` argument;
    `Except Unit` models a handler answering HTTP 500 after a thrown
    exception.
-/

namespace Analytics

/-- A JavaScript number: a finite rational or an IEEE special value. -/
inductive JsNum where
  | fin (q : ℚ)
  | inf
  | ninf
  | nan
deriving DecidableEq

/-- JS truthiness of a number: `0` and `NaN` are falsy, everything else
(including the infinities) is truthy. -/
def JsNum.truthy : JsNum → Bool
  | .fin q => decide (q ≠ 0)
  | .nan => false
  | .inf => true
  | .ninf => true

/-- JS `+` on numbers (IEEE semantics for the specials). -/
def JsNum.add : JsNum → JsNum → JsNum
  | .nan, _ => .nan
  | _, .nan => .nan
  | .inf, .ninf => .nan
  | .ninf, .inf => .nan
  | .inf, _ => .inf
  | _, .inf => .inf
  | .ninf, _ => .ninf
  | _, .ninf => .ninf
  | .fin a, .fin b => .fin (a + b)

/-- JS `*` on numbers (IEEE semantics for the specials). -/
def JsNum.mul : JsNum → JsNum → JsNum
  | .nan, _ => .nan
  | _, .nan => .nan
  | .fin a, .fin b => .fin (a * b)
  | .inf, .fin b => if b = 0 then .nan else if 0 < b then .inf else .ninf
  | .fin a, .inf => if a = 0 then .nan else if 0 < a then .inf else .ninf
  | .inf, .inf => .inf
  | .inf, .ninf => .ninf
  | .ninf, .inf => .ninf
  | .ninf, .ninf => .inf
  | .ninf, .fin b => if b = 0 then .nan else if 0 < b then .ninf else .inf
  | .fin a, .ninf => if a = 0 then .nan else if 0 < a then .ninf else .inf

/-- JS `/` on numbers: division by zero gives `±Infinity` (or `NaN` for
`0/0`), as in IEEE arithmetic. -/
def JsNum.div : JsNum → JsNum → JsNum
  | .nan, _ => .nan
  | _, .nan => .nan
  | .fin a, .fin b =>
      if b = 0 then (if a = 0 then .nan else if 0 < a then .inf else .ninf)
      else .fin (a / b)
  | .inf, .fin b => if 0 ≤ b then .inf else .ninf
  | .ninf, .fin b => if 0 ≤ b then .ninf else .inf
  | .fin _, .inf => .fin 0
  | .fin _, .ninf => .fin 0
  | .inf, .inf => .nan
  | .inf, .ninf => .nan
  | .ninf, .inf => .nan
  | .ninf, .ninf => .nan

/-- `Math.round`: round half towards `+∞` on finite values, identity on the
specials. -/
def JsNum.round : JsNum → JsNum
  | .fin q => .fin ((⌊q + 1/2⌋ : ℤ) : ℚ)
  | x => x

/-- A JS value in an identifier position (`user_id`, `session_id`):
identifiers travel as strings or (integer) numbers; `undef` models an absent
field. -/
inductive JsVal where
  | str (s : String)
  | num (n : ℤ)
  | boolv (b : Bool)
  | nullv
  | undef
deriving DecidableEq

/-- JS truthiness of a `JsVal`. -/
def JsVal.truthy : JsVal → Bool
  | .str s => !s.isEmpty
  | .num n => decide (n ≠ 0)
  | .boolv b => b
  | .nullv => false
  | .undef => false

/-- Numeric value of a run of decimal digits. -/
def decDigitsVal (ds : List Char) : ℕ :=
  ds.foldl (fun a c => a * 10 + (c.toNat - 48)) 0

/-- JS `ToNumber` on a string, restricted to optionally signed decimal
integer literals (the forms user identifiers take): surrounding spaces are
trimmed, the empty string converts to `0`, anything else non-numeric is
`NaN` (`none`). -/
def jsToNumber (s : String) : Option ℤ :=
  let cs := (s.data.dropWhile (· = ' ')).reverse.dropWhile (· = ' ') |>.reverse
  if cs.isEmpty then some 0
  else
    match cs with
    | '-' :: rest =>
        if !rest.isEmpty && rest.all Char.isDigit then some (-(decDigitsVal rest : ℤ)) else none
    | '+' :: rest =>
        if !rest.isEmpty && rest.all Char.isDigit then some (decDigitsVal rest : ℤ) else none
    | rest =>
        if rest.all Char.isDigit then some (decDigitsVal rest : ℤ) else none

/-- JS `parseInt` applied to an optional query-string value: `parseInt` of
`undefined` is `NaN` (`none`); on a string it skips leading spaces, reads an
optional sign and the longest leading digit run, and is `NaN` when no digit
is found. -/
def jsParseInt (v : Option String) : Option ℤ :=
  match v with
  | none => none
  | some s =>
    let cs := s.data.dropWhile (· = ' ')
    match cs with
    | '-' :: rest =>
        let ds := rest.takeWhile Char.isDigit
        if ds.isEmpty then none else some (-(decDigitsVal ds : ℤ))
    | '+' :: rest =>
        let ds := rest.takeWhile Char.isDigit
        if ds.isEmpty then none else some (decDigitsVal ds : ℤ)
    | rest =>
        let ds := rest.takeWhile Char.isDigit
        if ds.isEmpty then none else some (decDigitsVal ds : ℤ)

/-- JS loose equality `v == q` where `q` is a string (the URL parameter in
`GET /api/user/:userId`): a string compares by string equality, a number or
boolean compares numerically with `ToNumber(q)`, and `null`/`undefined`
are never loosely equal to a string. -/
def jsLooseEqStr (v : JsVal) (q : String) : Bool :=
  match v with
  | .str s => decide (s = q)
  | .num n => match jsToNumber q with
      | some m => decide (m = n)
      | none => false
  | .boolv b => match jsToNumber q with
      | some m => decide (m = (if b then 1 else 0))
      | none => false
  | .nullv => false
  | .undef => false

/-- One persisted event after enrichment (`{...event, processed_at}`).
Property values are modelled as JS numbers; an event always carries a
`properties` object (possibly empty). -/
structure Event where
  event_name : String
  properties : List (String × JsNum)
  processed_at : ℕ
deriving DecidableEq

/-- One client-submitted event, before enrichment. -/
structure RawEvent where
  event_name : String
  properties : List (String × JsNum)
deriving DecidableEq

/-- One persisted session = one log record's decoded content. -/
structure Session where
  session_id : JsVal
  user_id : JsVal
  user_info : JsVal
  received_at : ℕ
  events : List Event
deriving DecidableEq

/-- `e.properties[key]`: first binding of `key`, `undefined` (`none`) when
absent. -/
def lookupProp (e : Event) (key : String) : Option JsNum :=
  (e.properties.find? (fun p => decide (p.1 = key))).map (·.2)

/-- One line of `events.jsonl`: either `JSON.parse` decodes it into a
session, or `JSON.parse` throws on it. -/
inductive RawLine where
  | ok (s : Session)
  | malformed
deriving DecidableEq

/-- `lines.map(line => JSON.parse(line))`: parses the lines in order; the
first malformed line makes `JSON.parse` throw, which propagates out of
`map` and aborts the whole scan (`Except.error`). -/
def readAllJs : List RawLine → Except Unit (List Session)
  | [] => .ok []
  | .malformed :: _ => .error ()
  | .ok s :: rest => (readAllJs rest).map (fun l => s :: l)

/-- Number of events of all well-formed records of the log (every record an
accepted batch appends is well-formed). -/
def logEventsTotal (lines : List RawLine) : ℕ :=
  (lines.map (fun l => match l with
    | .ok s => s.events.length
    | .malformed => 0)).sum

/-- The `unique_users` field of the parsed `stats.json`.
`init()` writes `JSON.stringify({..., unique_users: new Set()})`, and
`JSON.stringify` serializes a `Set` with no enumerable own properties as
`{}` — so a fresh stats file parses to `emptyObj` (a truthy non-array).
`arr` is a JSON array (what `updateStats` writes back); `missingOrNull`
covers an absent key or another falsy value. -/
inductive UniqueUsers where
  | emptyObj
  | missingOrNull
  | arr (l : List JsVal)
deriving DecidableEq

/-- The members the collection actually holds (an `{}` object holds none). -/
def UniqueUsers.members : UniqueUsers → List JsVal
  | .arr l => l
  | _ => []

/-- The parsed content of `stats.json`. -/
structure Stats where
  total_sessions : ℕ
  total_events : ℕ
  total_calculations : ℕ
  total_shares : ℕ
  unique_users : UniqueUsers
deriving DecidableEq

/-- The stats file as written by `init()` on first start-up: all counters
zero and `unique_users` the serialization of `new Set()`, i.e. `{}`. -/
def initStats : Stats :=
  { total_sessions := 0, total_events := 0, total_calculations := 0,
    total_shares := 0, unique_users := .emptyObj }

/-- Occurrences of `name` among `evs` (what the per-event `forEach` counters
and the `eventsByType` tallies compute). -/
def countName (name : String) (evs : List Event) : ℕ :=
  (evs.filter (fun e => decide (e.event_name = name))).length

/-- `updateStats(data)`: reads the stats file, increments the counters,
inserts `data.user_id` into `unique_users` when truthy and not already a
member, and writes the file back.  The whole body is inside `try/catch`:
when `unique_users` parsed to the `{}` object, `stats.unique_users.includes`
is not a function, the call throws a TypeError before the write, and the
persisted stats file stays unchanged — so the function returns the persisted
result of the call. -/
def updateStats (data : Session) (stats : Stats) : Stats :=
  let s1 : Stats :=
    { stats with
      total_sessions := stats.total_sessions + 1,
      total_events := stats.total_events + data.events.length,
      total_calculations :=
        stats.total_calculations + countName "calculation_performed" data.events,
      total_shares := stats.total_shares + countName "share_clicked" data.events }
  if data.user_id.truthy then
    match stats.unique_users with
    | .emptyObj => stats
    | .missingOrNull => { s1 with unique_users := .arr [data.user_id] }
    | .arr l =>
        if data.user_id ∈ l then { s1 with unique_users := .arr l }
        else { s1 with unique_users := .arr (l ++ [data.user_id]) }
  else
    { s1 with unique_users := stats.unique_users }

/-- The persisted server state: the lines of `events.jsonl` and the content
of `stats.json`. -/
structure ServerState where
  log : List RawLine
  statsFile : Stats
deriving DecidableEq

/-- The `events` field of a request body: an array, an absent field
(`undefined`), or some other non-array value. -/
inductive EventsField where
  | arr (l : List RawEvent)
  | absent
  | nonArray
deriving DecidableEq

/-- The body of a `POST /api/analytics` request. -/
structure RawBatch where
  session_id : JsVal
  user_id : JsVal
  user_info : JsVal
  events : EventsField
deriving DecidableEq

/-- The enrichment step: stamps `processed_at` on every event and
`received_at` on the session (`now` is the server clock). -/
def enrich (now : ℕ) (b : RawBatch) (evs : List RawEvent) : Session :=
  { session_id := b.session_id, user_id := b.user_id, user_info := b.user_info,
    received_at := now,
    events := evs.map (fun e =>
      { event_name := e.event_name, properties := e.properties, processed_at := now }) }

/-- Outcome of `POST /api/analytics`. -/
inductive IngestResult where
  | validationError (msg : String)
  | serverError (msg : String)
  | success (events_received : ℕ)
deriving DecidableEq

/-- The `POST /api/analytics` handler.  Validation: the guard
`!events || !Array.isArray(events)` rejects exactly the non-array values
(an array is always truthy) with HTTP 400 before anything is persisted.
On an array, the enriched session is appended to `events.jsonl`
(`appendOk = false` models `fs.appendFile` throwing: the catch answers
HTTP 500 and neither file changed), and only then is `updateStats`
called on the appended data. -/
def postAnalytics (now : ℕ) (appendOk : Bool) (b : RawBatch) (st : ServerState) :
    IngestResult × ServerState :=
  match b.events with
  | .arr evs =>
      let enriched := enrich now b evs
      if appendOk then
        let st1 : ServerState := { st with log := st.log ++ [RawLine.ok enriched] }
        let st2 : ServerState := { st1 with statsFile := updateStats enriched st1.statsFile }
        (.success evs.length, st2)
      else
        (.serverError "Internal server error", st)
  | .absent => (.validationError "Invalid events data", st)
  | .nonArray => (.validationError "Invalid events data", st)

/-- `parseInt(req.query.limit) || 100`: `NaN` and `0` are falsy, so an
absent, unparsable or zero limit becomes `100`. -/
def effLimit (p : Option String) : ℤ :=
  match jsParseInt p with
  | none => 100
  | some n => if n = 0 then 100 else n

/-- JS `Array.prototype.slice(start)` with one argument: a negative start
counts from the end (`max(len + start, 0)`), so `xs.slice(-k)` with
`k > 0` is the last `min(k, len)` elements. -/
def jsSlice (xs : List α) (start : ℤ) : List α :=
  let len : ℤ := xs.length
  let b : ℤ := if start < 0 then max (len + start) 0 else min start len
  xs.drop b.toNat

/-- The `GET /api/events/recent` handler: takes `lines.slice(-limit)` of
the log and parses each kept line; the response carries the parsed records
and their count. -/
def recentHandler (p : Option String) (lines : List RawLine) :
    Except Unit (ℕ × List Session) :=
  match readAllJs (jsSlice lines (-(effLimit p))) with
  | .error e => .error e
  | .ok ss => .ok (ss.length, ss)

/-- Response body of `GET /api/user/:userId`. -/
structure UserResponse where
  user_id : String
  sessions_count : ℕ
  total_events : ℕ
  sessions : List Session
deriving DecidableEq

/-- The `GET /api/user/:userId` handler: parses every line, keeps the
sessions with `session.user_id == userId` (JS loose equality against the
URL-parameter string) and reports them with their count and the length of
their flattened events. -/
def getUserHandler (userId : String) (lines : List RawLine) :
    Except Unit UserResponse :=
  match readAllJs lines with
  | .error e => .error e
  | .ok sessions =>
      let userSessions := sessions.filter (fun s => jsLooseEqStr s.user_id userId)
      .ok { user_id := userId,
            sessions_count := userSessions.length,
            total_events := (userSessions.map (fun s => s.events)).flatten.length,
            sessions := userSessions }

/-- The `eventsByType` tally (`eventsByType[type] = (eventsByType[type] || 0) + 1`
over a plain object), modelled as the map name ↦ count it builds; an absent
key reads as `0` (`eventsByType[name] || 0`). -/
def tallyNames (evs : List Event) : String → ℕ :=
  evs.foldl (fun acc e => fun name =>
    if name = e.event_name then acc name + 1 else acc name) (fun _ => 0)

/-- `allEvents.filter(e => e.event_name === 'calculation_performed')`. -/
def calcsOf (allEvents : List Event) : List Event :=
  allEvents.filter (fun e => decide (e.event_name = "calculation_performed"))

/-- `(e.properties[key] || 0)`: a missing or falsy (`0`, `NaN`) property
value reads as the number `0`. -/
def propOrZero (e : Event) (key : String) : JsNum :=
  match lookupProp e key with
  | some v => if v.truthy then v else .fin 0
  | none => .fin 0

/-- The dashboard's average over a calculation property
(`calculations.reduce((sum, e) => sum + (e.properties.key || 0), 0) /
calculations.length`, and `0` when there are no calculation events); the
source writes this expression once for `price` and once for `rate`. -/
def dashAvg (allEvents : List Event) (key : String) : JsNum :=
  let cs := calcsOf allEvents
  if cs.length > 0 then
    (cs.foldl (fun acc e => JsNum.add acc (propOrZero e key)) (.fin 0)).div (.fin cs.length)
  else .fin 0

/-- `new Set(l).size` after `filter(Boolean)` of the session user ids:
first-occurrence deduplication of the truthy ids. -/
def jsSetSize (l : List JsVal) : ℕ :=
  (l.foldl (fun acc v => if v ∈ acc then acc else acc ++ [v]) []).length

/-- Response body of `GET /api/dashboard` (the `toFixed(2)` / `Math.round`
display formatting of the averages is kept as the rounded value for
`avg_price` and the exact value for `avg_rate`). -/
structure Dashboard where
  total_sessions : ℕ
  total_events : ℕ
  unique_users : ℕ
  events_by_type : String → ℕ
  calc_total : ℕ
  avg_price : JsNum
  avg_rate : JsNum

/-- The `GET /api/dashboard` handler: parses every line (a malformed line
throws and the catch answers HTTP 500), flattens the events and assembles
the aggregates. -/
def dashboardHandler (lines : List RawLine) : Except Unit Dashboard :=
  match readAllJs lines with
  | .error e => .error e
  | .ok allSessions =>
      let allEvents := (allSessions.map (fun s => s.events)).flatten
      .ok { total_sessions := allSessions.length,
            total_events := allEvents.length,
            unique_users :=
              jsSetSize ((allSessions.map (fun s => s.user_id)).filter JsVal.truthy),
            events_by_type := tallyNames allEvents,
            calc_total := (calcsOf allEvents).length,
            avg_price := (dashAvg allEvents "price").round,
            avg_rate := dashAvg allEvents "rate" }

/-- The CLI analyzer's value list for a calculation property
(`calculations.map(c => c.properties.key).filter(Boolean)`): the truthy
values of the property, a missing (`undefined`), zero or `NaN` value being
dropped by `filter(Boolean)`.  The analyzer's mean, min and max are all
computed over this list. -/
def analyzerVals (allEvents : List Event) (key : String) : List JsNum :=
  ((calcsOf allEvents).map (fun c => lookupProp c key)).filterMap
    (fun o => match o with
      | some v => if v.truthy then some v else none
      | none => none)

/-- The two funnel percentages the CLI analyzer prints, `none` when the
surrounding `if` suppresses the computation: the conversion rate
`(calculationsPerformed / appOpened) * 100` is computed only under
`appOpened > 0`; the share rate `(shareClicks / calculationsPerformed) * 100`
is computed under `appOpened > 0 && shareClicks > 0` — its own denominator
is not guarded. -/
def funnelRates (allEvents : List Event) : Option JsNum × Option JsNum :=
  let ebt := tallyNames allEvents
  let appOpened := ebt "app_opened"
  let calculationsPerformed := ebt "calculation_performed"
  let shareClicks := ebt "share_clicked"
  let calcRate :=
    if appOpened > 0 then
      some (((JsNum.fin calculationsPerformed).div (.fin appOpened)).mul (.fin 100))
    else none
  let shareRate :=
    if appOpened > 0 then
      if shareClicks > 0 then
        some (((JsNum.fin shareClicks).div (.fin calculationsPerformed)).mul (.fin 100))
      else none
    else none
  (calcRate, shareRate)

/-- Modelled from the spec ("mean, min, max computed only over events where
the named numeric property is present and a finite number"): the property
values the spec says an aggregate must range over. -/
def specPresentFiniteVals (allEvents : List Event) (key : String) : List ℚ :=
  (calcsOf allEvents).filterMap (fun e =>
    match lookupProp e key with
    | some (.fin q) => some q
    | _ => none)

/-- Modelled from the spec: the mean over exactly the present-and-finite
values, undefined when there are none. -/
def specMeanOverPresent (allEvents : List Event) (key : String) : Option ℚ :=
  let vs := specPresentFiniteVals allEvents key
  if vs.length = 0 then none else some (vs.sum / vs.length)

/-- The finite rational `propOrZero` yields whenever the stored value is
not `±Infinity` (used to state the dashboard average in closed form). -/
def propOrZeroQ (e : Event) (key : String) : ℚ :=
  match lookupProp e key with
  | some (.fin q) => q
  | _ => 0

/-! ### Helper lemmas -/

lemma readAllJs_map_ok (ss : List Session) :
    readAllJs (ss.map RawLine.ok) = .ok ss := by
  induction ss with
  | nil => rfl
  | cons s rest ih => simp [readAllJs, ih, Except.map]

lemma readAllJs_error_iff (lines : List RawLine) :
    readAllJs lines = .error () ↔ RawLine.malformed ∈ lines := by
  induction lines with
  | nil => simp [readAllJs]
  | cons l rest ih =>
      cases l with
      | malformed => simp [readAllJs]
      | ok s =>
          cases h : readAllJs rest with
          | error e => simp [readAllJs, h, Except.map, ← ih, h]
          | ok ss => simp [readAllJs, h, Except.map, ← ih, h]

lemma countName_cons (name : String) (e : Event) (evs : List Event) :
    countName name (e :: evs) =
      (if e.event_name = name then 1 else 0) + countName name evs := by
  by_cases h : e.event_name = name <;> simp [countName, List.filter_cons, h, Nat.add_comm]

lemma tallyNames_foldl (evs : List Event) (acc : String → ℕ) (name : String) :
    (evs.foldl (fun acc e => fun n =>
      if n = e.event_name then acc n + 1 else acc n) acc) name =
        acc name + countName name evs := by
  induction evs generalizing acc with
  | nil => simp [countName]
  | cons e rest ih =>
      rw [List.foldl_cons, ih, countName_cons]
      by_cases h : e.event_name = name
      · simp [h, Nat.add_comm, Nat.add_assoc, Nat.add_left_comm]
      · have h' : ¬ name = e.event_name := fun hh => h hh.symm
        simp [h, h', Nat.add_comm, Nat.add_assoc, Nat.add_left_comm]

/-- The `eventsByType` tally reads back exactly the per-name occurrence
count. -/
lemma tallyNames_eq_countName (evs : List Event) (name : String) :
    tallyNames evs name = countName name evs := by
  have := tallyNames_foldl evs (fun _ => 0) name
  simpa [tallyNames] using this

lemma propOrZero_eq_fin (e : Event) (key : String)
    (h1 : lookupProp e key ≠ some .inf) (h2 : lookupProp e key ≠ some .ninf) :
    propOrZero e key = .fin (propOrZeroQ e key) := by
  unfold propOrZero propOrZeroQ
  cases h : lookupProp e key with
  | none => rfl
  | some v =>
      cases v with
      | fin q =>
          by_cases hq : q = 0 <;> simp [JsNum.truthy, hq]
      | inf => exact absurd h h1
      | ninf => exact absurd h h2
      | nan => simp [JsNum.truthy]

lemma foldl_add_propOrZero (key : String) (cs : List Event) (q0 : ℚ)
    (h : ∀ e ∈ cs, lookupProp e key ≠ some .inf ∧ lookupProp e key ≠ some .ninf) :
    cs.foldl (fun acc e => JsNum.add acc (propOrZero e key)) (.fin q0) =
      .fin (q0 + (cs.map (fun e => propOrZeroQ e key)).sum) := by
  induction cs generalizing q0 with
  | nil => simp
  | cons e rest ih =>
      have he := h e (by simp)
      rw [List.foldl_cons, propOrZero_eq_fin e key he.1 he.2]
      have : JsNum.add (.fin q0) (.fin (propOrZeroQ e key)) =
          .fin (q0 + propOrZeroQ e key) := rfl
      rw [this, ih _ (fun x hx => h x (by simp [hx]))]
      simp [add_assoc]

/-! ### Claim theorems -/

/-- C1: the claim says the sum of `events.length` over the persisted log
records equals the persisted `total_events` after each accepted batch.  The
code violates this: from a fresh `init()`, `stats.json` holds
`unique_users: {}` (a `Set` serialized by `JSON.stringify`), so the very
first accepted batch that carries a truthy `user_id` makes
`stats.unique_users.includes` throw a TypeError inside `updateStats`, the
stats write is skipped, and the persisted `total_events` stays `0` while
the log holds the batch's 1 event — yet the batch is accepted with
`success`. -/
theorem c1_accepted_batch_leaves_stats_behind :
    (postAnalytics 0 true
      { session_id := .str "s1", user_id := .str "u1", user_info := .undef,
        events := .arr [{ event_name := "app_opened", properties := [] }] }
      { log := [], statsFile := initStats }).1 = .success 1 ∧
    logEventsTotal (postAnalytics 0 true
      { session_id := .str "s1", user_id := .str "u1", user_info := .undef,
        events := .arr [{ event_name := "app_opened", properties := [] }] }
      { log := [], statsFile := initStats }).2.log = 1 ∧
    (postAnalytics 0 true
      { session_id := .str "s1", user_id := .str "u1", user_info := .undef,
        events := .arr [{ event_name := "app_opened", properties := [] }] }
      { log := [], statsFile := initStats }).2.statsFile.total_events = 0 := by
  exact ⟨rfl, rfl, rfl⟩

/-- C2 counterexample: a log holding one well-formed record and one
malformed record makes both the raw scan and the dashboard query fail as a
whole (`JSON.parse` throws inside `map` and the catch answers HTTP 500);
the malformed record is not skipped and no result is produced from the
remaining record. -/
theorem c2_malformed_record_aborts_scan :
    readAllJs [RawLine.ok
        { session_id := .str "s1", user_id := .undef, user_info := .undef,
          received_at := 0, events := [] },
      RawLine.malformed] = .error () ∧
    dashboardHandler [RawLine.ok
        { session_id := .str "s1", user_id := .undef, user_info := .undef,
          received_at := 0, events := [] },
      RawLine.malformed] = .error () := ⟨rfl, rfl⟩

/-- C2 amended: a full-log scan fails exactly when the log holds a
malformed record — the decode failure aborts the whole read and surfaces
as a query failure (it is never skipped). -/
theorem c2_scan_fails_iff_some_record_malformed (lines : List RawLine) :
    (readAllJs lines = .error () ↔ RawLine.malformed ∈ lines) ∧
    (dashboardHandler lines = .error () ↔ RawLine.malformed ∈ lines) := by
  refine ⟨readAllJs_error_iff lines, ?_⟩
  rw [← readAllJs_error_iff lines]
  unfold dashboardHandler
  cases h : readAllJs lines with
  | error e => cases e; simp [h]
  | ok ss => simp [h]

/-- C4: a batch whose `events` field is missing or not an array is rejected
with the 400 response `Invalid events data`, and neither the event log nor
the stats file changes. -/
theorem c4_invalid_events_rejected (now : ℕ) (appendOk : Bool) (b : RawBatch)
    (st : ServerState) (h : b.events = .absent ∨ b.events = .nonArray) :
    postAnalytics now appendOk b st = (.validationError "Invalid events data", st) := by
  rcases h with h | h <;> simp [postAnalytics, h]

/-- C4 witness: `ingest({session_id:"x"})` (no `events` field) on a fresh
store is rejected and the store is unchanged. -/
theorem c4_invalid_events_rejected_witness :
    postAnalytics 0 true
      { session_id := .str "x", user_id := .undef, user_info := .undef,
        events := .absent }
      { log := [], statsFile := initStats } =
    (.validationError "Invalid events data", { log := [], statsFile := initStats }) :=
  c4_invalid_events_rejected 0 true _ _ (Or.inl rfl)

/-- C8: the stats file is updated only for a batch whose log append
completed: if `fs.appendFile` fails the whole state (log and stats) is
unchanged, and whenever the stats file changed the batch's record was
appended to the log. -/
theorem c8_stats_update_only_after_append (now : ℕ) (appendOk : Bool)
    (b : RawBatch) (st : ServerState) :
    (appendOk = false → (postAnalytics now appendOk b st).2 = st) ∧
    ((postAnalytics now appendOk b st).2.statsFile ≠ st.statsFile →
      appendOk = true ∧
      ∃ s : Session,
        (postAnalytics now appendOk b st).2.log = st.log ++ [RawLine.ok s]) := by
  cases hb : b.events with
  | arr evs =>
      cases appendOk with
      | false => simp [postAnalytics, hb]
      | true =>
          refine ⟨by simp, fun _ => ⟨rfl, ⟨enrich now b evs, ?_⟩⟩⟩
          simp [postAnalytics, hb]
  | absent => simp [postAnalytics, hb]
  | nonArray => simp [postAnalytics, hb]

/-- C10: a batch with `events: []` passes validation (an array is truthy),
is answered with `events_received: 0`, and appends exactly one record, with
zero embedded events, to the log. -/
theorem c10_empty_events_batch_accepted (now : ℕ) (st : ServerState)
    (sid uid uinfo : JsVal) :
    (postAnalytics now true
      { session_id := sid, user_id := uid, user_info := uinfo, events := .arr [] }
      st).1 = .success 0 ∧
    ∃ s : Session, s.events = [] ∧
      (postAnalytics now true
        { session_id := sid, user_id := uid, user_info := uinfo, events := .arr [] }
        st).2.log = st.log ++ [RawLine.ok s] :=
  ⟨rfl, ⟨enrich now
    { session_id := sid, user_id := uid, user_info := uinfo, events := .arr [] } [],
    rfl, rfl⟩⟩

/-- A sample `calculation_performed` event with a given `price`. -/
def calcWithPrice (q : ℚ) : Event :=
  { event_name := "calculation_performed",
    properties := [("price", .fin q)], processed_at := 0 }

/-- A sample `calculation_performed` event without the `price` property. -/
def calcNoPrice : Event :=
  { event_name := "calculation_performed", properties := [], processed_at := 0 }

/-- A sample event with the given name and no properties. -/
def plainEvent (n : String) : Event :=
  { event_name := n, properties := [], processed_at := 0 }

/-- C3 counterexample: the dashboard mean over `price` of two
`calculation_performed` events, one with `price: 100` and one without the
property, is `(100 + 0) / 2 = 50`, not the mean `100` over the events
where the property is present — the missing property is counted as a zero
contribution.  The CLI analyzer, in turn, drops a *present* `price: 0`
from its aggregate (`filter(Boolean)` drops falsy values), also contrary
to the claim. -/
theorem c3_missing_property_counted_as_zero :
    dashAvg [calcWithPrice 100, calcNoPrice] "price" = .fin 50 ∧
    specMeanOverPresent [calcWithPrice 100, calcNoPrice] "price" = some 100 ∧
    analyzerVals [calcWithPrice 0] "price" = [] := by
  refine ⟨?_, ?_, ?_⟩
  · have hcs : calcsOf [calcWithPrice 100, calcNoPrice] =
        [calcWithPrice 100, calcNoPrice] := rfl
    have hfin : ∀ e ∈ [calcWithPrice 100, calcNoPrice],
        lookupProp e "price" ≠ some JsNum.inf ∧
        lookupProp e "price" ≠ some JsNum.ninf := by decide
    have hm : ([calcWithPrice 100, calcNoPrice].map
        (fun e => propOrZeroQ e "price")) = [(100 : ℚ), 0] := rfl
    simp only [dashAvg, hcs]
    rw [foldl_add_propOrZero "price" [calcWithPrice 100, calcNoPrice] 0 hfin, hm]
    norm_num [JsNum.div]
  · have hv : specPresentFiniteVals [calcWithPrice 100, calcNoPrice] "price" =
        [(100 : ℚ)] := rfl
    norm_num [specMeanOverPresent, hv]
  · decide

/-- C3 amended: the dashboard average over a calculation property is the sum
of the property values *with a missing or falsy value counted as zero*
divided by the number of all `calculation_performed` events (so an event
missing the property still enters the denominator), and the CLI analyzer
aggregates only over truthy property values (excluding missing values, but
also excluding a present `0` or `NaN`). -/
theorem c3_dashboard_counts_missing_as_zero (allEvents : List Event) (key : String)
    (hne : calcsOf allEvents ≠ [])
    (hfin : ∀ e ∈ calcsOf allEvents,
      lookupProp e key ≠ some .inf ∧ lookupProp e key ≠ some .ninf) :
    dashAvg allEvents key =
      .fin (((calcsOf allEvents).map (fun e => propOrZeroQ e key)).sum /
        ((calcsOf allEvents).length : ℚ)) ∧
    ∀ v ∈ analyzerVals allEvents key, v.truthy = true := by
  constructor
  · unfold dashAvg
    have hl : (calcsOf allEvents).length > 0 := List.length_pos.mpr hne
    rw [if_pos hl, foldl_add_propOrZero key _ 0 hfin]
    have hc : ((calcsOf allEvents).length : ℚ) ≠ 0 := by
      exact_mod_cast Nat.pos_iff_ne_zero.mp hl
    simp [JsNum.div, hc]
  · intro v hv
    unfold analyzerVals at hv
    rw [List.mem_filterMap] at hv
    obtain ⟨o, _, hv2⟩ := hv
    cases o with
    | none => simp at hv2
    | some w =>
        by_cases hw : w.truthy
        · simp [hw] at hv2
          rwa [← hv2]
        · simp [hw] at hv2

/-- C3 witness: the amended dashboard formula evaluated on two calculation
events with prices 10 and 20. -/
theorem c3_dashboard_counts_missing_as_zero_witness :
    dashAvg [calcWithPrice 10, calcWithPrice 20] "price" =
      .fin (((calcsOf [calcWithPrice 10, calcWithPrice 20]).map
          (fun e => propOrZeroQ e "price")).sum /
        ((calcsOf [calcWithPrice 10, calcWithPrice 20]).length : ℚ)) :=
  (c3_dashboard_counts_missing_as_zero _ "price" (by decide) (by decide)).1

/-- C5 counterexample: a log whose events are one `app_opened` and one
`share_clicked` (so the share funnel's denominator
`calculation_performed` is zero) makes the analyzer compute
`(1 / 0) * 100 = Infinity` for the share rate — an infinite percentage
reaches the output instead of a "not computed" result. -/
theorem c5_share_funnel_infinite_percentage :
    countName "calculation_performed" [plainEvent "app_opened", plainEvent "share_clicked"] = 0 ∧
    funnelRates [plainEvent "app_opened", plainEvent "share_clicked"] =
      (some (.fin 0), some .inf) := by
  refine ⟨by decide, ?_⟩
  have h1 : tallyNames [plainEvent "app_opened", plainEvent "share_clicked"]
      "app_opened" = 1 := rfl
  have h2 : tallyNames [plainEvent "app_opened", plainEvent "share_clicked"]
      "calculation_performed" = 0 := rfl
  have h3 : tallyNames [plainEvent "app_opened", plainEvent "share_clicked"]
      "share_clicked" = 1 := rfl
  simp only [funnelRates, h1, h2, h3]
  norm_num [JsNum.div, JsNum.mul]

/-- C5 amended: the conversion-rate funnel is computed only when its
denominator `app_opened` is nonzero and is then always a finite value;
the share funnel is guarded only by `share_clicked > 0` (and
`app_opened > 0`), not by its own denominator: its value is never `NaN`
and is finite whenever `calculation_performed > 0`, but the
`calculation_performed = 0` case produces `Infinity` (see the
counterexample) rather than a "not computed" result. -/
theorem c5_funnel_zero_denominator_guards (allEvents : List Event) :
    ((funnelRates allEvents).1 = none ↔ countName "app_opened" allEvents = 0) ∧
    (∀ x, (funnelRates allEvents).1 = some x → ∃ q : ℚ, x = .fin q) ∧
    (∀ x, (funnelRates allEvents).2 = some x → x ≠ .nan) ∧
    (∀ x, (funnelRates allEvents).2 = some x →
      0 < countName "calculation_performed" allEvents → ∃ q : ℚ, x = .fin q) := by
  simp only [funnelRates, tallyNames_eq_countName]
  set A := countName "app_opened" allEvents with hA
  set C := countName "calculation_performed" allEvents with hC
  set S := countName "share_clicked" allEvents with hS
  rcases Nat.eq_zero_or_pos A with ha | ha
  · refine ⟨by simp [ha], by simp [ha], by simp [ha], by simp [ha]⟩
  · have ha' : A ≠ 0 := Nat.pos_iff_ne_zero.mp ha
    have haQ : ((A : ℚ)) ≠ 0 := by exact_mod_cast ha'
    refine ⟨by simp [ha, ha'], ?_, ?_, ?_⟩
    · intro x hx
      rw [if_pos ha] at hx
      have hx' := Option.some.inj hx
      refine ⟨(C : ℚ) / (A : ℚ) * 100, ?_⟩
      rw [← hx']
      simp [JsNum.div, JsNum.mul, haQ]
    · intro x hx
      rw [if_pos ha] at hx
      rcases Nat.eq_zero_or_pos S with hs | hs
      · simp [hs] at hx
      · rw [if_pos hs] at hx
        have hx' := Option.some.inj hx
        rcases Nat.eq_zero_or_pos C with hc | hc
        · have hsQ : (0 : ℚ) < (S : ℚ) := by exact_mod_cast hs
          rw [← hx']
          simp [JsNum.div, JsNum.mul, hc, ne_of_gt hsQ, hsQ]
        · have hcQ : ((C : ℚ)) ≠ 0 := by exact_mod_cast Nat.pos_iff_ne_zero.mp hc
          rw [← hx']
          simp [JsNum.div, JsNum.mul, hcQ]
    · intro x hx hcpos
      rw [if_pos ha] at hx
      rcases Nat.eq_zero_or_pos S with hs | hs
      · simp [hs] at hx
      · rw [if_pos hs] at hx
        have hx' := Option.some.inj hx
        have hcQ : ((C : ℚ)) ≠ 0 := by exact_mod_cast Nat.pos_iff_ne_zero.mp hcpos
        refine ⟨(S : ℚ) / (C : ℚ) * 100, ?_⟩
        rw [← hx']
        simp [JsNum.div, JsNum.mul, hcQ]

lemma updateStats_preserves_nodup (s : Session) (st : Stats)
    (h : st.unique_users.members.Nodup) :
    ((updateStats s st).unique_users).members.Nodup := by
  cases ht : s.user_id.truthy with
  | false => simpa [updateStats, ht] using h
  | true =>
      cases hu : st.unique_users with
      | emptyObj => simpa [updateStats, ht, hu] using h
      | missingOrNull => simp [updateStats, ht, hu, UniqueUsers.members]
      | arr l =>
          have hl : l.Nodup := by simpa [hu, UniqueUsers.members] using h
          by_cases hm : s.user_id ∈ l
          · simp [updateStats, ht, hu, hm, UniqueUsers.members, hl]
          · simp [updateStats, ht, hu, hm, UniqueUsers.members,
              List.nodup_append, hl]

lemma foldl_updateStats_nodup (batches : List Session) (st : Stats)
    (h : st.unique_users.members.Nodup) :
    ((batches.foldl (fun acc s => updateStats s acc) st).unique_users).members.Nodup := by
  induction batches generalizing st with
  | nil => exact h
  | cons b rest ih => exact ih _ (updateStats_preserves_nodup b st h)

/-- C6: from the freshly initialized stats file, any number of
`updateStats` calls leaves `unique_users` without duplicates (reloading is
the identity in the model: `JSON.parse` of the written file gives the
written value back), and an update whose `user_id` is already a member of
the stored collection leaves the collection unchanged. -/
theorem c6_unique_users_no_duplicates (batches : List Session) :
    ((batches.foldl (fun acc s => updateStats s acc) initStats).unique_users).members.Nodup ∧
    ∀ (s : Session) (st : Stats), s.user_id ∈ st.unique_users.members →
      (updateStats s st).unique_users = st.unique_users := by
  constructor
  · exact foldl_updateStats_nodup batches initStats
      (by simp [initStats, UniqueUsers.members])
  · intro s st hm
    cases hu : st.unique_users with
    | emptyObj => rw [hu] at hm; simp [UniqueUsers.members] at hm
    | missingOrNull => rw [hu] at hm; simp [UniqueUsers.members] at hm
    | arr l =>
        rw [hu] at hm
        simp only [UniqueUsers.members] at hm
        cases ht : s.user_id.truthy with
        | false => simp [updateStats, ht, hu]
        | true => simp [updateStats, ht, hu, hm]

/-- C7: the per-user rollup returns exactly the sessions whose `user_id`
is loosely equal (`==`) to the queried string, together with their count
and the flattened count of their events; in particular a stored numeric
`user_id: 42` matches the query string `"42"`, as does a stored string
`user_id: "42"`. -/
theorem c7_user_rollup_loose_equality (userId : String) (ss : List Session) :
    ∃ resp : UserResponse,
      getUserHandler userId (ss.map RawLine.ok) = .ok resp ∧
      resp.sessions = ss.filter (fun s => jsLooseEqStr s.user_id userId) ∧
      resp.sessions_count = resp.sessions.length ∧
      resp.total_events = (resp.sessions.map (fun s => s.events.length)).sum ∧
      jsLooseEqStr (.num 42) "42" = true ∧
      jsLooseEqStr (.str "42") "42" = true := by
  have h : getUserHandler userId (ss.map RawLine.ok) = .ok
      { user_id := userId,
        sessions_count := (ss.filter (fun s => jsLooseEqStr s.user_id userId)).length,
        total_events := ((ss.filter (fun s => jsLooseEqStr s.user_id userId)).map
          (fun s => s.events)).flatten.length,
        sessions := ss.filter (fun s => jsLooseEqStr s.user_id userId) } := by
    unfold getUserHandler
    rw [readAllJs_map_ok]
  refine ⟨_, h, rfl, rfl, ?_, by decide, by decide⟩
  simp only [List.length_flatten, List.map_map]
  rfl

lemma effLimit_default (p : Option String)
    (h : jsParseInt p = none ∨ jsParseInt p = some 0) : effLimit p = 100 := by
  rcases h with h | h <;> simp [effLimit, h]

lemma jsSlice_neg_100 (xs : List α) :
    jsSlice xs (-100) = xs.drop (xs.length - 100) := by
  simp only [jsSlice]
  have hneg : (-100 : ℤ) < 0 := by norm_num
  rw [if_pos hneg]
  congr 1
  omega

/-- C9: when the `limit` query parameter is absent, unparsable or parses
to `0`, `parseInt(...) || 100` falls back to `100`, and the handler
returns the last `min(100, n)` records of an `n`-record store (so
`limit=0` does not return zero records). -/
theorem c9_limit_fallback_returns_last_100 (p : Option String) (ss : List Session)
    (h : jsParseInt p = none ∨ jsParseInt p = some 0) :
    recentHandler p (ss.map RawLine.ok) =
      .ok (min 100 ss.length, ss.drop (ss.length - 100)) := by
  unfold recentHandler
  rw [effLimit_default p h, jsSlice_neg_100 (ss.map RawLine.ok)]
  rw [List.length_map, ← List.map_drop, readAllJs_map_ok]
  have hlen : (ss.drop (ss.length - 100)).length = min 100 ss.length := by
    rw [List.length_drop]
    omega
  show Except.ok ((ss.drop (ss.length - 100)).length, ss.drop (ss.length - 100)) = _
  rw [hlen]

/-- C9 witness: `limit=0` on a three-record store returns all three
records, not zero. -/
theorem c9_limit_fallback_returns_last_100_witness :
    recentHandler (some "0")
      ([{ session_id := .str "a", user_id := .undef, user_info := .undef,
          received_at := 0, events := [] },
        { session_id := .str "b", user_id := .undef, user_info := .undef,
          received_at := 0, events := [] },
        { session_id := .str "c", user_id := .undef, user_info := .undef,
          received_at := 0, events := [] }].map RawLine.ok) =
      .ok (3,
        [{ session_id := .str "a", user_id := .undef, user_info := .undef,
           received_at := 0, events := [] },
         { session_id := .str "b", user_id := .undef, user_info := .undef,
           received_at := 0, events := [] },
         { session_id := .str "c", user_id := .undef, user_info := .undef,
           received_at := 0, events := [] }]) :=
  c9_limit_fallback_returns_last_100 (some "0") _ (Or.inr rfl)

end Analytics
